import Mathlib

/-!
Verification development for the loki/ecir IR tree model and its
traversal/rewrite engine.

Part 1 embeds the expression model of `src/loki/expression.py`: the
`Expression` class hierarchy (Operation, Literal, LiteralList, Variable,
InlineCall, Cast, Index, RangeIndex), its textual rendering (`expr`
properties), its `type` properties, and its Python `==` behaviour
(per-class `__eq__` methods combined through Python's rich-comparison
protocol: left method first, then the reflected method, then identity).

Part 2 embeds the IR node hierarchy of `src/loki/ir.py` (constructor
normalisation, `children`, `_rebuild`, `_update`) and the
`Transformer`/`NestedTransformer` visitors of `src/ecir/visitors.py`.
-/

mutual

/-- Python values that appear as sub-expression slots in
`src/loki/expression.py`: `None`, plain strings, or `Expression`
instances.  Data types (the `type`/`kind` attributes) are abstracted as
`Option String` tags. -/
inductive PyVal where
  | none
  | str (s : String)
  | expr (e : Expression)

/-- The `Expression` subclasses of `src/loki/expression.py`, with their
constructor-stored fields.  `Literal.value` is modelled as a string (the
source text of the literal), and type tags as `Option String`. -/
inductive Expression where
  | operation (ops : List String) (operands : List PyVal) (parenthesis : Bool)
  | literal (value : String) (kind : Option String) (type0 : Option String)
  | literalList (values : List PyVal)
  | variable (name : String) (type0 : Option String) (shape : PyVal)
      (dimensions : List PyVal) (ref : PyVal) (initial : PyVal)
  | inlineCall (name : String) (arguments : List PyVal)
      (kwarguments : List (String × PyVal))
  | cast (expr0 : PyVal) (type0 : Option String)
  | index (name : String)
  | rangeIndex (lower upper step : PyVal)

end

/-- Returns `true` exactly for the Python value `None` (an `is None` test). -/
def PyVal.isNone : PyVal → Bool
  | .none => true
  | _ => false

mutual

/-- Size measures used for termination of the mutually recursive
equality functions; every value has size at least 1 via the `+ 1`
wrappers below. -/
def sizePAux : PyVal → Nat
  | .none => 0
  | .str _ => 0
  | .expr e => sizeEAux e + 1

def sizeEAux : Expression → Nat
  | .operation _ operands _ => sizePL operands + 1
  | .literal _ _ _ => 0
  | .literalList values => sizePL values + 1
  | .variable _ _ shape dimensions ref initial =>
      (sizePAux shape + 1) + sizePL dimensions + (sizePAux ref + 1) +
        (sizePAux initial + 1)
  | .inlineCall _ arguments kwarguments =>
      sizePL arguments + sizePKW kwarguments + 1
  | .cast e _ => sizePAux e + 1
  | .index _ => 0
  | .rangeIndex lower upper step =>
      (sizePAux lower + 1) + (sizePAux upper + 1) + (sizePAux step + 1)

def sizePL : List PyVal → Nat
  | [] => 0
  | x :: xs => (sizePAux x + 1) + sizePL xs

def sizePKW : List (String × PyVal) → Nat
  | [] => 0
  | (_, x) :: xs => (sizePAux x + 1) + sizePKW xs

end

def sizeP (p : PyVal) : Nat := sizePAux p + 1

def sizeE (e : Expression) : Nat := sizeEAux e + 1

/-- Python `str.upper` restricted to ASCII, as used on identifier and
rendering strings throughout `src/loki/expression.py`. -/
def pyCharUpper (c : Char) : Char :=
  if 97 ≤ c.toNat ∧ c.toNat ≤ 122 then Char.ofNat (c.toNat - 32) else c

def pyUpper (s : String) : String := ⟨s.data.map pyCharUpper⟩

mutual

/-- Python `str(v)`: a string is itself, `None` prints as `"None"`, and an
`Expression` prints via `__repr__`, which returns `self.expr`. -/
def pyStr : PyVal → String
  | .none => "None"
  | .str s => s
  | .expr e => exprRender e
termination_by p => sizeP p
decreasing_by all_goals (simp only [sizeP, sizeE, sizePAux, sizeEAux, sizePL, sizePKW]; omega)

/-- The `expr` property of each `Expression` subclass in
`src/loki/expression.py` (canonical textual rendering).  An `Operation`
with no operands has no rendering in the source (indexing `operands[0]`
would fail); it renders as `""` here and is never used on such values. -/
def exprRender : Expression → String
  | .operation ops operands parenthesis =>
      match ops, operands with
      | [o], [e] =>
          -- special case: a unary operator, '%s%s' % (ops[0], operands[0])
          o ++ pyStr e
      | _, [] => ""
      | ops, o0 :: rest =>
          let s := pyStr o0 ++ renderOpChain ops rest
          if parenthesis then "(" ++ s ++ ")" else s
  | .literal value kind _ =>
      match kind with
      | .none => value
      | .some k => value ++ "_" ++ k
  | .literalList values => "(/" ++ renderJoin ", " values ++ "/)"
  | .variable name _ _ dimensions ref _ =>
      let idx := if dimensions.length > 0 then
        "(" ++ renderJoin "," dimensions ++ ")" else ""
      let refS := match ref with
        | .none => ""
        | r => pyStr r ++ "%"
      refS ++ name ++ idx
  | .inlineCall name arguments kwarguments =>
      let args := renderList arguments ++ renderKWList kwarguments
      name ++ "(" ++ String.intercalate "," args ++ ")"
  | .cast e _ => pyStr e
  | .index name => name
  | .rangeIndex lower upper step =>
      let stepS := match step with
        | .none => ""
        | s => ":" ++ pyStr s
      let lowerS := match lower with
        | .none => ""
        | l => pyStr l
      let upperS := match upper with
        | .none => ""
        | u => pyStr u
      lowerS ++ ":" ++ upperS ++ stepS
termination_by e => sizeE e
decreasing_by all_goals (simp only [sizeP, sizeE, sizePAux, sizeEAux, sizePL, sizePKW]; omega)

/-- Models `''.join('%s%s' % (o, str(e)) for o, e in zip(ops, operands[1:]))`. -/
def renderOpChain : List String → List PyVal → String
  | o :: ops, e :: es => o ++ pyStr e ++ renderOpChain ops es
  | _, _ => ""
termination_by _ es => sizePL es + 1
decreasing_by all_goals (simp only [sizeP, sizeE, sizePAux, sizeEAux, sizePL, sizePKW]; omega)

/-- Models `','.join(str(v) for v in vs)`. -/
def renderJoin (sep : String) : List PyVal → String
  | [] => ""
  | [v] => pyStr v
  | v :: vs => pyStr v ++ sep ++ renderJoin sep vs
termination_by vs => sizePL vs + 1
decreasing_by all_goals (simp only [sizeP, sizeE, sizePAux, sizeEAux, sizePL, sizePKW]; omega)

/-- Models `[str(a) for a in args]`. -/
def renderList : List PyVal → List String
  | [] => []
  | v :: vs => pyStr v :: renderList vs
termination_by vs => sizePL vs + 1
decreasing_by all_goals (simp only [sizeP, sizeE, sizePAux, sizeEAux, sizePL, sizePKW]; omega)

/-- Models `['%s=%s' % (k, v) for k, v in kwargs]`. -/
def renderKWList : List (String × PyVal) → List String
  | [] => []
  | (k, v) :: vs => (k ++ "=" ++ pyStr v) :: renderKWList vs
termination_by vs => sizePKW vs + 1
decreasing_by all_goals (simp only [sizeP, sizeE, sizePAux, sizeEAux, sizePL, sizePKW]; omega)

end

mutual

/-- Structural identity of values, used to model Python's final `a is b`
fall-back of the `==` operator when neither operand's `__eq__` produces a
result.  (Two structurally equal values model the same object in every
use below, where the fall-back is only ever reached on identical
operands or on operands of different shapes.) -/
def beqP : PyVal → PyVal → Bool
  | .none, .none => true
  | .str s, .str t => s == t
  | .expr e1, .expr e2 => beqE e1 e2
  | _, _ => false

def beqE : Expression → Expression → Bool
  | .operation o1 p1 b1, .operation o2 p2 b2 =>
      o1 == o2 && beqPL p1 p2 && b1 == b2
  | .literal v1 k1 t1, .literal v2 k2 t2 => v1 == v2 && k1 == k2 && t1 == t2
  | .literalList v1, .literalList v2 => beqPL v1 v2
  | .variable n1 t1 s1 d1 r1 i1, .variable n2 t2 s2 d2 r2 i2 =>
      n1 == n2 && t1 == t2 && beqP s1 s2 && beqPL d1 d2 && beqP r1 r2 &&
        beqP i1 i2
  | .inlineCall n1 a1 k1, .inlineCall n2 a2 k2 =>
      n1 == n2 && beqPL a1 a2 && beqPKW k1 k2
  | .cast e1 t1, .cast e2 t2 => beqP e1 e2 && t1 == t2
  | .index n1, .index n2 => n1 == n2
  | .rangeIndex l1 u1 s1, .rangeIndex l2 u2 s2 =>
      beqP l1 l2 && beqP u1 u2 && beqP s1 s2
  | _, _ => false

def beqPL : List PyVal → List PyVal → Bool
  | [], [] => true
  | x :: xs, y :: ys => beqP x y && beqPL xs ys
  | _, _ => false

def beqPKW : List (String × PyVal) → List (String × PyVal) → Bool
  | [], [] => true
  | (k1, x) :: xs, (k2, y) :: ys => k1 == k2 && beqP x y && beqPKW xs ys
  | _, _ => false

end

mutual

/-- Python's `==` operator on our value universe: try the left operand's
`__eq__`; on `NotImplemented` try the right operand's (reflected)
`__eq__`; on `NotImplemented` again fall back to identity
(`CPython: default_richcompare`). -/
def pyEq (a b : PyVal) : Bool :=
  match pyEqMethod a b with
  | .some r => r
  | .none =>
      match pyEqMethod b a with
      | .some r => r
      | .none => beqP a b
termination_by 4 * (sizeP a + sizeP b) + 1
decreasing_by all_goals (simp only [sizeP, sizeE, sizePAux, sizeEAux, sizePL]; omega)

/-- The `__eq__` method selected for the left operand: `str.__eq__` for
strings (`NotImplemented` against non-strings), `object.__eq__` for
`None` (equal only to itself, otherwise `NotImplemented`), and the
per-class methods of `src/loki/expression.py` for expressions.
`Option.none` models `NotImplemented`. -/
def pyEqMethod (a b : PyVal) : Option Bool :=
  match a with
  | .str s => match b with
    | .str t => .some (s == t)
    | _ => .none
  | .none => match b with
    | .none => .some true
    | _ => .none
  | .expr e => exprEqMethod e b
termination_by 4 * (sizeP a + sizeP b)
decreasing_by all_goals (simp only [sizeP, sizeE, sizePAux, sizeEAux, sizePL]; omega)

/-- The `__eq__` methods of the `Expression` subclasses, transcribed from
`src/loki/expression.py`.  `Operation`, `Literal`, `Variable`, `Index`
and `RangeIndex` define `__eq__`; `LiteralList`, `InlineCall` and `Cast`
inherit `object.__eq__` (`NotImplemented` here).  Key comparisons
(`self.__key() == other.__key()`) compare tuples elementwise with the
full `==` operator. -/
def exprEqMethod (e : Expression) (other : PyVal) : Option Bool :=
  match e with
  | .operation ops operands parenthesis =>
      match other with
      | .str t => .some (pyUpper (exprRender e) == pyUpper t)
      | .expr (.operation ops2 operands2 parenthesis2) =>
          .some (ops == ops2 && listEqPy operands operands2 &&
            parenthesis == parenthesis2)
      | _ => .none
  | .literal value kind type0 =>
      match other with
      | .str t => .some (pyUpper value == pyUpper t)
      | .expr (.literal value2 kind2 type2) =>
          .some (value == value2 && kind == kind2 && type0 == type2)
      | _ => .none
  | .literalList _ => .none
  | .variable name type0 _ dimensions ref _ =>
      match other with
      | .str t =>
          -- str(self).upper() == other.upper(); str(self) is self.expr
          .some (pyUpper (exprRender e) == pyUpper t)
      | .expr (.variable name2 type2 _ dimensions2 ref2 _) =>
          -- __key is (name, type, dimensions, ref); shape and initial
          -- do not participate
          .some (name == name2 && type0 == type2 &&
            listEqPy dimensions dimensions2 && pyEq ref ref2)
      | _ => .none
  | .inlineCall _ _ _ => .none
  | .cast _ _ => .none
  | .index name =>
      match other with
      | .str t => .some (pyUpper name == pyUpper t)
      | .expr (.index name2) => .some (name == name2)
      | _ => .none
  | .rangeIndex lower upper step =>
      -- Short-cut for "trivial ranges", ie. `1:v:1` -> `v`
      if (lower.isNone || pyEq lower (.str "1")) &&
          (step.isNone || pyEq step (.str "1")) &&
          !upper.isNone then
        .some (pyEq upper other)
      else
        match other with
        | .str t => .some (pyUpper (exprRender e) == pyUpper t)
        | .expr (.rangeIndex lower2 upper2 step2) =>
            .some (pyEq lower lower2 && pyEq upper upper2 &&
              pyEq step step2)
        | _ => .none
termination_by 4 * (sizeE e + sizeP other)
decreasing_by all_goals (simp only [sizeP, sizeE, sizePAux, sizeEAux, sizePL]; omega)

/-- Python tuple equality over tuples of values: equal lengths and
elementwise `==`. -/
def listEqPy : List PyVal → List PyVal → Bool
  | [], [] => true
  | x :: xs, y :: ys => pyEq x y && listEqPy xs ys
  | _, _ => false
termination_by xs ys => 4 * (sizePL xs + sizePL ys) + 2
decreasing_by all_goals (simp only [sizeP, sizeE, sizePAux, sizeEAux, sizePL]; omega)

end

/-- Python exceptions that the embedded code can raise. -/
inductive PyErr where
  | typeError
  | attributeError
  | indexError
  | assertionError
  | nameError
deriving DecidableEq

/-- Python values arising while evaluating `Operation.type`: the list
`types`, a single type tag, or a bool. -/
inductive PyTypesVal where
  | vbool (b : Bool)
  | vlist (ts : List (Option String))
  | vtype (t : Option String)

/-- Python `==` on those values: lists compare elementwise to lists,
type tags to type tags; comparing a list with a non-list gives `False`
(both `__eq__` methods return `NotImplemented` and the operands are
distinct objects). -/
def pyTypesEq : PyTypesVal → PyTypesVal → Bool
  | .vlist a, .vlist b => a == b
  | .vtype a, .vtype b => a == b
  | .vbool a, .vbool b => a == b
  | _, _ => false

/-- Python `all(x)`: iterates its argument; a `bool` (and `None`) is not
iterable, so `all(False)` raises `TypeError`.  A string is iterable and
all its one-character substrings are truthy. -/
def pyAll : PyTypesVal → Except PyErr Bool
  | .vlist ts => .ok (ts.all fun t => match t with
      | Option.none => false
      | Option.some s => !(s == ""))
  | .vbool _ => .error .typeError
  | .vtype Option.none => .error .typeError
  | .vtype (Option.some _) => .ok true

mutual

/-- Evaluates `o.type` for an operand value: strings and `None` have no `type`
attribute. -/
def exprType : PyVal → Except PyErr (Option String)
  | .none => .error .attributeError
  | .str _ => .error .attributeError
  | .expr e => exprTypeE e
termination_by p => sizeP p
decreasing_by all_goals (simp only [sizeP, sizeE, sizePAux, sizeEAux, sizePL]; omega)

/-- The `type` property of each `Expression` subclass.  For `Operation`
this transcribes the source verbatim:

    types = [o.type for o in self.operands]
    assert(all(types == types[0]))
    return types[0]

`types == types[0]` compares the list `types` with its first element, and
`all(...)` is then applied to the resulting bool.  Classes without a
`type` override (`LiteralList`, `InlineCall`, `RangeIndex`) return `None`
via the abstract base property whose body is `pass`. -/
def exprTypeE : Expression → Except PyErr (Option String)
  | .operation _ operands _ => do
      let types ← exprTypeList operands
      match types with
      | [] => .error .indexError   -- types[0] on an empty list
      | t0 :: _ =>
          let cond := pyTypesEq (.vlist types) (.vtype t0)
          match pyAll (.vbool cond) with
          | .error err => .error err
          | .ok b => if b then .ok t0 else .error .assertionError
  | .literal _ _ type0 => .ok type0
  | .literalList _ => .ok Option.none
  | .variable _ type0 _ _ _ _ => .ok type0
  | .inlineCall _ _ _ => .ok Option.none
  | .cast _ type0 => .ok type0
  | .index _ => .ok Option.none    -- explicit `return None`
  | .rangeIndex _ _ _ => .ok Option.none
termination_by e => sizeE e
decreasing_by all_goals (simp only [sizeP, sizeE, sizePAux, sizeEAux, sizePL]; omega)

/-- Models `[o.type for o in operands]`, propagating the first exception. -/
def exprTypeList : List PyVal → Except PyErr (List (Option String))
  | [] => .ok []
  | x :: xs => do
      let t ← exprType x
      let ts ← exprTypeList xs
      .ok (t :: ts)
termination_by xs => sizePL xs + 1
decreasing_by all_goals (simp only [sizeP, sizeE, sizePAux, sizeEAux, sizePL]; omega)

end

mutual

/-- Values stored in IR node fields and visited by the transformer
dispatch of `src/ecir/visitors.py`: Python `None`, bools, strings,
expressions (opaque to the transformer: they dispatch to
`visit_object`), IR nodes, and tuples/lists (both dispatch to
`visit_tuple`). -/
inductive TVal where
  | none
  | bool (b : Bool)
  | str (s : String)
  | expr (e : Expression)
  | node (n : IRNode)
  | tup (xs : List TVal)

/-- The concrete `Node` subclasses of `src/loki/ir.py` with their
constructor-normalised fields.  `body`-like fields are stored after the
constructor's `as_tuple` (a list), `Declaration.dimensions` after
`as_tuple(dimensions) if dimensions else None` (an optional list),
`CallStatement.kwarguments` after `as_tuple(kwarguments) if kwarguments
else ()`.  Every node also carries the base-class `source`/`label`
constructor arguments (`src`/`lbl`), except `ConditionalStatement`
(whose `__init__` takes only `source`) and `CallContext` (whose
`__init__` takes neither). -/
inductive IRNode where
  | intrinsic (text src lbl : TVal)
  | comment (text src lbl : TVal)
  | commentBlock (comments src lbl : TVal)
  | pragma (keyword content src lbl : TVal)
  | preprocessorDirective (text src lbl : TVal)
  | loop (variable0 bounds : TVal) (body : List TVal)
      (pragma0 pragmaPost loopLabel name0 hasEndDo src lbl : TVal)
  | whileLoop (condition : TVal) (body : List TVal)
      (pragma0 pragmaPost loopLabel name0 hasEndDo src lbl : TVal)
  | conditional (conditions bodies elseBody : List TVal)
      (inline0 name0 src lbl : TVal)
  | conditionalStatement (target condition expr0 elseExpr src : TVal)
  | multiConditional (expr0 : TVal) (values bodies elseBody : List TVal)
      (name0 src lbl : TVal)
  | statement (target expr0 ptr comment0 src lbl : TVal)
  | maskedStatement (condition : TVal) (body default0 : List TVal)
      (src lbl : TVal)
  | sectionNode (body : List TVal) (src lbl : TVal)
  | scope (body : List TVal) (associations src lbl : TVal)
  | declaration (variables0 : List TVal) (dimensions : Option (List TVal))
      (external0 comment0 pragma0 src lbl : TVal)
  | dataDeclaration (variable0 : TVal) (values : List TVal) (src lbl : TVal)
  | importNode (module0 symbols cImport fInclude src lbl : TVal)
  | interfaceNode (spec0 : TVal) (body : List TVal) (src lbl : TVal)
  | allocation (variables0 : List TVal) (dataSource src lbl : TVal)
  | deallocation (variables0 : List TVal) (src lbl : TVal)
  | nullify (variables0 : List TVal) (src lbl : TVal)
  | callStatement (name0 : TVal) (arguments kwarguments : List TVal)
      (context pragma0 src lbl : TVal)
  | callContext (routine active : TVal)
  | typeDef (name0 : TVal) (body : List TVal) (bindC symbols src lbl : TVal)

end

/-- Returns `true` exactly for the Python value `None`. -/
def TVal.isNone : TVal → Bool
  | .none => true
  | _ => false

/-- Models `loki.tools.as_tuple` as used by the node constructors: `None`
becomes the empty tuple, a tuple/list keeps its elements, any other
value becomes a one-element tuple. -/
def asTuple : TVal → List TVal
  | .none => []
  | .tup xs => xs
  | x => [x]

/-- Python truthiness of a field value (`if dimensions`,
`if kwarguments`, `symbols or ()`): `None`, `False`, `''` and empty
tuples are falsy; nodes and expressions are truthy. -/
def isFalsy : TVal → Bool
  | .none => true
  | .bool b => !b
  | .str s => s == ""
  | .tup xs => xs.isEmpty
  | _ => false

/-- The `children` property of each node class in `src/loki/ir.py`:
one entry per traversable field, as defined classwise.  Classes without
an own `children` property (including `TypeDef`) inherit `Node.children`,
which returns the empty tuple.  `Declaration.children` is
`(self.variables,) + (self.dimensions or [],)`. -/
def children : IRNode → List TVal
  | .loop v b body _ _ _ _ _ _ _ => [v, b, .tup body]
  | .whileLoop c body _ _ _ _ _ _ _ => [c, .tup body]
  | .conditional conds bodies elseB _ _ _ _ =>
      [.tup conds, .tup bodies, .tup elseB]
  | .multiConditional e vals bodies elseB _ _ _ =>
      [e, .tup vals, .tup bodies, .tup elseB]
  | .statement t e _ _ _ _ => [t, e]
  | .maskedStatement c body d _ _ => [c, .tup body, .tup d]
  | .sectionNode body _ _ => [.tup body]
  | .scope body _ _ _ => [.tup body]
  | .declaration vars dims _ _ _ _ _ => [.tup vars, .tup (dims.getD [])]
  | .dataDeclaration v vals _ _ => [v, .tup vals]
  | .interfaceNode _ body _ _ => [.tup body]
  | .allocation vars _ _ _ => [.tup vars]
  | .deallocation vars _ _ => [.tup vars]
  | .nullify vars _ _ => [.tup vars]
  | .callStatement _ args kwargs _ _ _ _ => [.tup args, .tup kwargs]
  | _ => []

/-- The `_traversable` class attribute of each node class in
`src/loki/ir.py` (inherited as `[]` where a class declares none;
`Scope` inherits `Section`'s, `TypeDef` declares `['body']`). -/
def traversableNames : IRNode → List String
  | .loop _ _ _ _ _ _ _ _ _ _ => ["variable", "bounds", "body"]
  | .whileLoop _ _ _ _ _ _ _ _ _ => ["condition", "body"]
  | .conditional _ _ _ _ _ _ _ => ["conditions", "bodies", "else_body"]
  | .multiConditional _ _ _ _ _ _ _ => ["expr", "values", "bodies", "else_body"]
  | .statement _ _ _ _ _ _ => ["target", "expr"]
  | .maskedStatement _ _ _ _ _ => ["condition", "body", "default"]
  | .sectionNode _ _ _ => ["body"]
  | .scope _ _ _ _ => ["body"]
  | .declaration _ _ _ _ _ _ _ => ["variables", "dimensions"]
  | .dataDeclaration _ _ _ _ => ["variable", "values"]
  | .interfaceNode _ _ _ _ => ["body"]
  | .allocation _ _ _ _ => ["variables"]
  | .deallocation _ _ _ => ["variables"]
  | .nullify _ _ _ => ["variables"]
  | .callStatement _ _ _ _ _ _ _ => ["arguments", "kwarguments"]
  | .typeDef _ _ _ _ _ _ => ["body"]
  | _ => []

/-- Positional rebuild argument `i` if provided, else the stored value
(`Node._rebuild` zips `args` against the traversable names, so missing
positions keep the original constructor argument). -/
def slotT (gs : List TVal) (i : Nat) (dflt : TVal) : TVal :=
  (gs.get? i).getD dflt

/-- As `slotT`, for fields the constructor passes through `as_tuple`. -/
def slotL (gs : List TVal) (i : Nat) (dflt : List TVal) : List TVal :=
  match gs.get? i with
  | .some g => asTuple g
  | .none => dflt

/-- Models `Node._rebuild(*gs, **self.args_frozen)` from `src/loki/ir.py`:
re-invoke the node's constructor with the positional arguments bound to
the traversable fields in declaration order (missing positions keep the
stored argument) and all non-traversable arguments unchanged.  The
constructor's normalisations are re-applied to the new arguments
(`as_tuple` for body-like fields, the `if dimensions`/`if kwarguments`
truthiness tests of `Declaration`/`CallStatement`). -/
def rebuild (n : IRNode) (gs : List TVal) : IRNode :=
  match n with
  | .loop v b body p pp ll nm hed s lb =>
      .loop (slotT gs 0 v) (slotT gs 1 b) (slotL gs 2 body) p pp ll nm hed s lb
  | .whileLoop c body p pp ll nm hed s lb =>
      .whileLoop (slotT gs 0 c) (slotL gs 1 body) p pp ll nm hed s lb
  | .conditional conds bodies elseB inl nm s lb =>
      .conditional (slotL gs 0 conds) (slotL gs 1 bodies) (slotL gs 2 elseB)
        inl nm s lb
  | .multiConditional e vals bodies elseB nm s lb =>
      .multiConditional (slotT gs 0 e) (slotL gs 1 vals) (slotL gs 2 bodies)
        (slotL gs 3 elseB) nm s lb
  | .statement t e ptr c s lb =>
      .statement (slotT gs 0 t) (slotT gs 1 e) ptr c s lb
  | .maskedStatement c body d s lb =>
      .maskedStatement (slotT gs 0 c) (slotL gs 1 body) (slotL gs 2 d) s lb
  | .sectionNode body s lb => .sectionNode (slotL gs 0 body) s lb
  | .scope body assoc s lb => .scope (slotL gs 0 body) assoc s lb
  | .declaration vars dims ext c p s lb =>
      .declaration (slotL gs 0 vars)
        (match gs.get? 1 with
         | .some g => if isFalsy g then Option.none else .some (asTuple g)
         | .none => dims)
        ext c p s lb
  | .dataDeclaration v vals s lb =>
      .dataDeclaration (slotT gs 0 v) (slotL gs 1 vals) s lb
  | .interfaceNode sp body s lb => .interfaceNode sp (slotL gs 0 body) s lb
  | .allocation vars ds s lb => .allocation (slotL gs 0 vars) ds s lb
  | .deallocation vars s lb => .deallocation (slotL gs 0 vars) s lb
  | .nullify vars s lb => .nullify (slotL gs 0 vars) s lb
  | .callStatement nm args kwargs ctx p s lb =>
      .callStatement nm (slotL gs 0 args)
        (match gs.get? 1 with
         | .some g => if isFalsy g then [] else asTuple g
         | .none => kwargs)
        ctx p s lb
  | .typeDef nm body bc sym s lb => .typeDef nm (slotL gs 0 body) bc sym s lb
  | other => other

mutual

/-- Size measures for the transformer recursion. -/
def sizeTAux : TVal → Nat
  | .none => 0
  | .bool _ => 0
  | .str _ => 0
  | .expr _ => 0
  | .node n => sizeNAux n + 1
  | .tup xs => sizeTL xs + 1

def sizeNAux : IRNode → Nat
  | .intrinsic a b c => sizeTAux a + sizeTAux b + sizeTAux c + 3
  | .comment a b c => sizeTAux a + sizeTAux b + sizeTAux c + 3
  | .commentBlock a b c => sizeTAux a + sizeTAux b + sizeTAux c + 3
  | .pragma a b c d => sizeTAux a + sizeTAux b + sizeTAux c + sizeTAux d + 4
  | .preprocessorDirective a b c => sizeTAux a + sizeTAux b + sizeTAux c + 3
  | .loop v b body p pp ll nm hed s lb =>
      sizeTAux v + sizeTAux b + (sizeTL body + 1) + sizeTAux p + sizeTAux pp +
        sizeTAux ll + sizeTAux nm + sizeTAux hed + sizeTAux s + sizeTAux lb + 10
  | .whileLoop c body p pp ll nm hed s lb =>
      sizeTAux c + (sizeTL body + 1) + sizeTAux p + sizeTAux pp + sizeTAux ll +
        sizeTAux nm + sizeTAux hed + sizeTAux s + sizeTAux lb + 9
  | .conditional conds bodies elseB inl nm s lb =>
      (sizeTL conds + 1) + (sizeTL bodies + 1) + (sizeTL elseB + 1) +
        sizeTAux inl + sizeTAux nm + sizeTAux s + sizeTAux lb + 7
  | .conditionalStatement a b c d e =>
      sizeTAux a + sizeTAux b + sizeTAux c + sizeTAux d + sizeTAux e + 5
  | .multiConditional e vals bodies elseB nm s lb =>
      sizeTAux e + (sizeTL vals + 1) + (sizeTL bodies + 1) +
        (sizeTL elseB + 1) + sizeTAux nm + sizeTAux s + sizeTAux lb + 7
  | .statement t e ptr c s lb =>
      sizeTAux t + sizeTAux e + sizeTAux ptr + sizeTAux c + sizeTAux s +
        sizeTAux lb + 6
  | .maskedStatement c body d s lb =>
      sizeTAux c + (sizeTL body + 1) + (sizeTL d + 1) + sizeTAux s +
        sizeTAux lb + 5
  | .sectionNode body s lb => (sizeTL body + 1) + sizeTAux s + sizeTAux lb + 3
  | .scope body assoc s lb =>
      (sizeTL body + 1) + sizeTAux assoc + sizeTAux s + sizeTAux lb + 4
  | .declaration vars dims ext c p s lb =>
      (sizeTL vars + 1) + sizeDims dims + sizeTAux ext +
        sizeTAux c + sizeTAux p + sizeTAux s + sizeTAux lb + 7
  | .dataDeclaration v vals s lb =>
      sizeTAux v + (sizeTL vals + 1) + sizeTAux s + sizeTAux lb + 4
  | .importNode a b c d e f =>
      sizeTAux a + sizeTAux b + sizeTAux c + sizeTAux d + sizeTAux e +
        sizeTAux f + 6
  | .interfaceNode sp body s lb =>
      sizeTAux sp + (sizeTL body + 1) + sizeTAux s + sizeTAux lb + 4
  | .allocation vars ds s lb =>
      (sizeTL vars + 1) + sizeTAux ds + sizeTAux s + sizeTAux lb + 4
  | .deallocation vars s lb => (sizeTL vars + 1) + sizeTAux s + sizeTAux lb + 3
  | .nullify vars s lb => (sizeTL vars + 1) + sizeTAux s + sizeTAux lb + 3
  | .callStatement nm args kwargs ctx p s lb =>
      sizeTAux nm + (sizeTL args + 1) + (sizeTL kwargs + 1) + sizeTAux ctx +
        sizeTAux p + sizeTAux s + sizeTAux lb + 7
  | .callContext a b => sizeTAux a + sizeTAux b + 2
  | .typeDef nm body bc sym s lb =>
      sizeTAux nm + (sizeTL body + 1) + sizeTAux bc + sizeTAux sym +
        sizeTAux s + sizeTAux lb + 6

def sizeTL : List TVal → Nat
  | [] => 0
  | x :: xs => (sizeTAux x + 1) + sizeTL xs

def sizeDims : Option (List TVal) → Nat
  | .some l => sizeTL l + 1
  | .none => 1

end

def sizeT (t : TVal) : Nat := sizeTAux t + 1

def sizeN (n : IRNode) : Nat := sizeNAux n + 1

/-- A value of the `Transformer` mapper dict from `src/ecir/visitors.py`:
`None` (drop the node), an iterable of nodes (splice before the first
child group), or a single replacement node. -/
inductive THandle where
  | remove
  | splice (ns : List TVal)
  | replace (h : IRNode)

/-- The mapper (a dict keyed by node identity in the source, abstracted
to a partial lookup function on nodes). -/
def Mapper := IRNode → Option THandle

/-- The `visit_tuple` post-processing: keep the visited elements that are
not `None` (`tuple(i for i in visited if i is not None)`). -/
def tfilter (ys : List TVal) : TVal := .tup (ys.filter (fun y => !y.isNone))

/-- Models `Transformer.visit_Node` for a node found in the mapper:

    if handle is None: return None
    elif isinstance(handle, Iterable):
        if not o.children: raise VisitorException
        extended = (tuple(handle) + o.children[0],) + o.children[1:]
        return o._rebuild(*extended, **o.args_frozen)
    else:
        return handle._rebuild(**handle.args)

`VisitorException` is not defined anywhere in the source, so the raise
statement itself raises `NameError`; concatenating `tuple(handle)` with a
non-tuple first child group raises `TypeError`; and
`handle._rebuild(**handle.args)` re-invokes the constructor on all the
stored arguments, producing a structurally identical copy of `handle`. -/
def tmapped (n : IRNode) (h : THandle) : Except PyErr TVal :=
  match h with
  | .remove => .ok .none
  | .splice ns =>
      match children n with
      | [] => .error .nameError
      | g0 :: rest =>
          match g0 with
          | .tup xs => .ok (.node (rebuild n (.tup (ns ++ xs) :: rest)))
          | _ => .error .typeError
  | .replace h0 => .ok (.node h0)

mutual

/-- The dispatch of `Visitor.visit` as specialised by `Transformer`
(`nested = false`) and `NestedTransformer` (`nested = true`): tuples and
lists dispatch to `visit_tuple` (visit every element, then drop `None`
results), nodes to `visit_Node`, and every other object to
`visit_object`, which returns it unchanged. -/
def visitT (nested : Bool) (m : Mapper) : TVal → Except PyErr TVal
  | .tup xs => do
      let ys ← visitL nested m xs
      .ok (tfilter ys)
  | .node n => visitNode nested m n
  | v => .ok v
termination_by t => sizeT t * 2 + 1
decreasing_by all_goals (simp only [sizeT, sizeN, sizeTAux, sizeNAux, sizeTL, sizeDims]; omega)

/-- Models `tuple(self.visit(i, **kwargs) for i in o)`. -/
def visitL (nested : Bool) (m : Mapper) : List TVal → Except PyErr (List TVal)
  | [] => .ok []
  | x :: xs => do
      let y ← visitT nested m x
      let ys ← visitL nested m xs
      .ok (y :: ys)
termination_by xs => (sizeTL xs + 1) * 2
decreasing_by all_goals (simp only [sizeT, sizeN, sizeTAux, sizeNAux, sizeTL, sizeDims]; omega)

/-- Visiting the `self.dimensions or []` child group of a
`Declaration`: the empty list when `dimensions` is `None`. -/
def visitDims (nested : Bool) (m : Mapper) : Option (List TVal) → Except PyErr (List TVal)
  | .some l => visitL nested m l
  | .none => .ok []
termination_by d => (sizeDims d + 1) * 2
decreasing_by all_goals (simp only [sizeT, sizeN, sizeTAux, sizeNAux, sizeTL, sizeDims]; omega)

/-- Models `Transformer.visit_Node` / `NestedTransformer.visit_Node`.  The
`Transformer` decides replacement before descending: a mapped node is
handled by `tmapped` without visiting its children.  Otherwise (and
always for the `NestedTransformer`) the children groups are visited
first, exactly as the classwise `children` property builds them, and the
node is rebuilt from the visited groups
(`o._rebuild(*rebuilt, **o.args_frozen)`); a `NestedTransformer` then
applies `self.mapper.get(o, o)` to the visited groups: `None` drops the
node, an iterable is spliced before the first (visited) child group
(`NameError` for a childless node, `TypeError` if that group is not a
tuple), and a single replacement is rebuilt with the original node's
visited children (`handle._rebuild(*rebuilt, **handle.args_frozen)`). -/
def visitNode (nested : Bool) (m : Mapper) (n : IRNode) : Except PyErr TVal :=
  match nested, m n with
  | false, .some h => tmapped n h
  | _, mh => do
      let gs ← visitGroups nested m n
      match mh with
      | .none => .ok (.node (rebuild n gs))
      | .some .remove => .ok .none
      | .some (.splice ns) =>
          match gs with
          | [] => .error .nameError
          | g0 :: rest =>
              match g0 with
              | .tup xs => .ok (.node (rebuild n (.tup (ns ++ xs) :: rest)))
              | _ => .error .typeError
      | .some (.replace h0) => .ok (.node (rebuild h0 gs))
termination_by sizeN n * 2 + 1
decreasing_by all_goals (simp only [sizeT, sizeN, sizeTAux, sizeNAux, sizeTL, sizeDims]; omega)

/-- Models `rebuilt = tuple(self.visit(i, **kwargs) for i in o.children)`: visit
every child group, exactly as the classwise `children` property builds
them (tuple-valued groups through `visit_tuple`, other groups through
the generic dispatch). -/
def visitGroups (nested : Bool) (m : Mapper) (n : IRNode) :
    Except PyErr (List TVal) :=
  match n with
  | .loop v b body _ _ _ _ _ _ _ => do
      let g0 ← visitT nested m v
      let g1 ← visitT nested m b
      let g2 ← visitL nested m body
      pure [g0, g1, tfilter g2]
  | .whileLoop c body _ _ _ _ _ _ _ => do
      let g0 ← visitT nested m c
      let g1 ← visitL nested m body
      pure [g0, tfilter g1]
  | .conditional conds bodies elseB _ _ _ _ => do
      let g0 ← visitL nested m conds
      let g1 ← visitL nested m bodies
      let g2 ← visitL nested m elseB
      pure [tfilter g0, tfilter g1, tfilter g2]
  | .multiConditional e vals bodies elseB _ _ _ => do
      let g0 ← visitT nested m e
      let g1 ← visitL nested m vals
      let g2 ← visitL nested m bodies
      let g3 ← visitL nested m elseB
      pure [g0, tfilter g1, tfilter g2, tfilter g3]
  | .statement t e _ _ _ _ => do
      let g0 ← visitT nested m t
      let g1 ← visitT nested m e
      pure [g0, g1]
  | .maskedStatement c body d _ _ => do
      let g0 ← visitT nested m c
      let g1 ← visitL nested m body
      let g2 ← visitL nested m d
      pure [g0, tfilter g1, tfilter g2]
  | .sectionNode body _ _ => do
      let g0 ← visitL nested m body
      pure [tfilter g0]
  | .scope body _ _ _ => do
      let g0 ← visitL nested m body
      pure [tfilter g0]
  | .declaration vars dims _ _ _ _ _ => do
      let g0 ← visitL nested m vars
      -- `self.dimensions or []` is the empty list when absent
      let g1 ← visitDims nested m dims
      pure [tfilter g0, tfilter g1]
  | .dataDeclaration v vals _ _ => do
      let g0 ← visitT nested m v
      let g1 ← visitL nested m vals
      pure [g0, tfilter g1]
  | .interfaceNode _ body _ _ => do
      let g0 ← visitL nested m body
      pure [tfilter g0]
  | .allocation vars _ _ _ => do
      let g0 ← visitL nested m vars
      pure [tfilter g0]
  | .deallocation vars _ _ => do
      let g0 ← visitL nested m vars
      pure [tfilter g0]
  | .nullify vars _ _ => do
      let g0 ← visitL nested m vars
      pure [tfilter g0]
  | .callStatement _ args kwargs _ _ _ _ => do
      let g0 ← visitL nested m args
      let g1 ← visitL nested m kwargs
      pure [tfilter g0, tfilter g1]
  | _ => pure []
termination_by sizeN n * 2
decreasing_by all_goals (simp only [sizeT, sizeN, sizeTAux, sizeNAux, sizeTL, sizeDims]; omega)

end

/-- Models `Transformer(mapper).visit(t)`. -/
def transformerVisit (m : Mapper) (t : TVal) : Except PyErr TVal :=
  visitT false m t

/-- Models `NestedTransformer(mapper).visit(t)`. -/
def nestedTransformerVisit (m : Mapper) (t : TVal) : Except PyErr TVal :=
  visitT true m t

/-- The empty mapper (a `Transformer` constructed with `mapper={}`). -/
def emptyMapper : Mapper := fun _ => Option.none

mutual

/-- Well-formedness of a tree value: no tuple anywhere inside a
traversable child group directly contains Python `None` (such a `None`
would be silently dropped by `visit_tuple`), and `Declaration` never
stores `dimensions = ()` (its constructor turns falsy dimensions into
`None`).  Constructor-built trees satisfy this. -/
def wfT : TVal → Bool
  | .tup xs => wfL xs
  | .node n => wfN n
  | _ => true

def wfL : List TVal → Bool
  | [] => true
  | x :: xs => !x.isNone && wfT x && wfL xs

def wfN : IRNode → Bool
  | .loop v b body _ _ _ _ _ _ _ => wfT v && wfT b && wfL body
  | .whileLoop c body _ _ _ _ _ _ _ => wfT c && wfL body
  | .conditional conds bodies elseB _ _ _ _ =>
      wfL conds && wfL bodies && wfL elseB
  | .multiConditional e vals bodies elseB _ _ _ =>
      wfT e && wfL vals && wfL bodies && wfL elseB
  | .statement t e _ _ _ _ => wfT t && wfT e
  | .maskedStatement c body d _ _ => wfT c && wfL body && wfL d
  | .sectionNode body _ _ => wfL body
  | .scope body _ _ _ => wfL body
  | .declaration vars dims _ _ _ _ _ => wfL vars && wfDims dims
  | .dataDeclaration v vals _ _ => wfT v && wfL vals
  | .interfaceNode _ body _ _ => wfL body
  | .allocation vars _ _ _ => wfL vars
  | .deallocation vars _ _ => wfL vars
  | .nullify vars _ _ => wfL vars
  | .callStatement _ args kwargs _ _ _ _ => wfL args && wfL kwargs
  | _ => true

/-- Well-formedness of a stored `Declaration.dimensions`: the
constructor turns falsy dimensions into `None`, so `Some []` never
occurs. -/
def wfDims : Option (List TVal) → Bool
  | .some [] => false
  | .some l => wfL l
  | .none => true

end

/-- Models `Section.append(node)` from `src/loki/ir.py`, at the object level: a
heap of node objects addressed by reference.  The operation runs
`self._update(body=self.body + as_tuple(node))`, which re-initialises
the *same* object with the extended body tuple; no new node is
allocated.  (`Scope` inherits the operation from `Section`.) -/
def sectionAppend (heap : List IRNode) (r : Nat) (x : TVal) : List IRNode :=
  match heap.get? r with
  | .some (.sectionNode body s lb) =>
      heap.set r (.sectionNode (body ++ asTuple x) s lb)
  | .some (.scope body assoc s lb) =>
      heap.set r (.scope (body ++ asTuple x) assoc s lb)
  | _ => heap

/-- Models `Section.insert(pos, node)`:
`self._update(body=self.body[:pos] + as_tuple(node) + self.body[pos:])`. -/
def sectionInsert (heap : List IRNode) (r : Nat) (pos : Nat) (x : TVal) :
    List IRNode :=
  match heap.get? r with
  | .some (.sectionNode body s lb) =>
      heap.set r (.sectionNode (body.take pos ++ asTuple x ++ body.drop pos) s lb)
  | .some (.scope body assoc s lb) =>
      heap.set r (.scope (body.take pos ++ asTuple x ++ body.drop pos) assoc s lb)
  | _ => heap

/-- Models `Section.prepend(node)`: `self._update(body=as_tuple(node) + self.body)`. -/
def sectionPrepend (heap : List IRNode) (r : Nat) (x : TVal) : List IRNode :=
  match heap.get? r with
  | .some (.sectionNode body s lb) =>
      heap.set r (.sectionNode (asTuple x ++ body) s lb)
  | .some (.scope body assoc s lb) =>
      heap.set r (.scope (asTuple x ++ body) assoc s lb)
  | _ => heap

/-- A heap of mapper-dict objects, for `Transformer.__init__`
(`src/ecir/visitors.py` lines 141-144): dict objects addressed by
reference, each holding mapper content. -/
abbrev DictHeap := List Mapper

/-- Models `Transformer.__init__(mapper)`: `self.mapper = mapper.copy()` — a
fresh dict object is allocated (at the end of the heap) with the same
content as the caller's dict; the transformer keeps a reference to the
fresh object.  Returns the extended heap and the transformer's dict
reference. -/
def transformerInit (heap : DictHeap) (callerRef : Nat) : DictHeap × Nat :=
  (heap ++ [heap.getD callerRef emptyMapper], heap.length)

/-- Mutating the caller's dict object: replace the content stored at
reference `r` with arbitrary new content (covers `__setitem__`,
`update`, `clear`, ...). -/
def dictAssign (heap : DictHeap) (r : Nat) (d : Mapper) : DictHeap :=
  heap.set r d

/-- Running a transformation pass with the dict stored at the
transformer's reference: which nodes get replaced is a function of that
dict's content only. -/
def transformerRun (heap : DictHeap) (tRef : Nat) (t : TVal) :
    Except PyErr TVal :=
  transformerVisit (heap.getD tRef emptyMapper) t

/-- Discriminator for the `TypeDef` node class. -/
def isTypeDef : IRNode → Bool
  | .typeDef _ _ _ _ _ _ => true
  | _ => false

mutual

/-- No `RangeIndex` occurs anywhere inside the value.  On such values
Python `==` (as combined by `pyEq`) is reflexive; a `RangeIndex` with a
trivial lower/step breaks reflexivity because its `__eq__` compares its
bare `upper` against the other operand instead of comparing keys. -/
def rangeFree : PyVal → Bool
  | .expr e => rangeFreeE e
  | _ => true

def rangeFreeE : Expression → Bool
  | .operation _ operands _ => rangeFreeL operands
  | .literal _ _ _ => true
  | .literalList vs => rangeFreeL vs
  | .variable _ _ sh dims ref ini =>
      rangeFree sh && rangeFreeL dims && rangeFree ref && rangeFree ini
  | .inlineCall _ args kwargs => rangeFreeL args && rangeFreeKW kwargs
  | .cast e _ => rangeFree e
  | .index _ => true
  | .rangeIndex _ _ _ => false

def rangeFreeL : List PyVal → Bool
  | [] => true
  | x :: xs => rangeFree x && rangeFreeL xs

def rangeFreeKW : List (String × PyVal) → Bool
  | [] => true
  | (_, x) :: xs => rangeFree x && rangeFreeKW xs

end

/-- A small concrete assignment statement (`JL = 0`) used as witness
input. -/
def exStatement : IRNode :=
  .statement (.expr (.variable "JL" (.some "INTEGER") .none [] .none .none))
    (.expr (.literal "0" Option.none (.some "INTEGER")))
    (.bool false) .none .none .none

/-- A second concrete statement (`KL = 1`). -/
def exStatement2 : IRNode :=
  .statement (.expr (.variable "KL" (.some "INTEGER") .none [] .none .none))
    (.expr (.literal "1" Option.none (.some "INTEGER")))
    (.bool false) .none .none .none

/-- A third concrete statement (`ML = 2`). -/
def exStatement3 : IRNode :=
  .statement (.expr (.variable "ML" (.some "INTEGER") .none [] .none .none))
    (.expr (.literal "2" Option.none (.some "INTEGER")))
    (.bool false) .none .none .none

/-- A concrete loop over `I = 1:N` whose body is `exStatement`, used as
witness input. -/
def exLoop : IRNode :=
  .loop (.expr (.index "I")) (.expr (.rangeIndex (.str "1") (.str "N") .none))
    [.node exStatement] .none .none .none .none (.bool true) .none .none

/-- A concrete `Section` holding the three statements. -/
def exSection : IRNode :=
  .sectionNode [.node exStatement, .node exStatement2, .node exStatement3]
    .none .none

/-- A mapper sending exactly `exStatement2` to the removal sentinel
(`{S2: None}` keyed by identity in the source; the match below
recognises that node). -/
def exRemoveMapper : Mapper := fun n =>
  match n with
  | .statement (.expr (.variable "KL" _ _ _ _ _)) _ _ _ _ _ => .some .remove
  | _ => Option.none

/-- A mapper sending exactly `exSection` to a splice of `exStatement3`. -/
def exSpliceMapper : Mapper := fun n =>
  match n with
  | .sectionNode _ _ _ => .some (.splice [.node exStatement3])
  | _ => Option.none

/-- A mapper sending exactly the `Comment` node to a splice. -/
def exSpliceCommentMapper : Mapper := fun n =>
  match n with
  | .comment _ _ _ => .some (.splice [.node exStatement3])
  | _ => Option.none

/-- A mapper sending every `Loop` to a splice (used to exercise the
non-tuple first child group). -/
def exSpliceLoopMapper : Mapper := fun n =>
  match n with
  | .loop _ _ _ _ _ _ _ _ _ _ => .some (.splice [.node exStatement3])
  | _ => Option.none

/-- A mapper sending `exStatement` to a single replacement node
`exStatement2`. -/
def exReplaceMapper : Mapper := fun n =>
  match n with
  | .statement (.expr (.variable "JL" _ _ _ _ _)) _ _ _ _ _ =>
      .some (.replace exStatement2)
  | _ => Option.none

set_option maxHeartbeats 1000000

/-! Theorems.  General lemmas about the transformer first, then the
claim theorems. -/

theorem wfL_filter : ∀ xs : List TVal, wfL xs = true →
    xs.filter (fun y => !y.isNone) = xs := by
  intro xs h
  induction xs with
  | nil => rfl
  | cons x xs ih =>
      simp only [wfL, Bool.and_eq_true] at h
      obtain ⟨⟨hx, _⟩, hxs⟩ := h
      simp [List.filter, hx, ih hxs]

/-- An unmapped node is rebuilt from its visited child groups, for both
transformer kinds. -/
theorem visitNode_unmapped (nested : Bool) (m : Mapper) (n : IRNode)
    (hm : m n = Option.none) :
    visitNode nested m n =
      (visitGroups nested m n).bind (fun gs => .ok (.node (rebuild n gs))) := by
  cases nested <;> simp [visitNode, hm, bind, Except.bind]

/-- A mapped node is decided by `tmapped` before descending, for the
plain `Transformer`. -/
theorem visitNode_mapped (m : Mapper) (n : IRNode) (h : THandle)
    (hm : m n = .some h) : visitNode false m n = tmapped n h := by
  simp [visitNode, hm]

theorem visitEmptyAll : ∀ k : Nat,
    (∀ (nested : Bool) (t : TVal), sizeT t ≤ k → wfT t = true →
        visitT nested emptyMapper t = Except.ok t) ∧
    (∀ (nested : Bool) (xs : List TVal), sizeTL xs + 1 ≤ k → wfL xs = true →
        visitL nested emptyMapper xs = Except.ok xs) ∧
    (∀ (nested : Bool) (n : IRNode), sizeN n ≤ k → wfN n = true →
        visitNode nested emptyMapper n = Except.ok (.node n)) := by
  intro k
  induction k using Nat.strong_induction_on with
  | _ k ih =>
  refine ⟨?_, ?_, ?_⟩
  · -- visitT
    intro nested t hk h
    cases t with
    | none => simp [visitT]
    | bool b => simp [visitT]
    | str s => simp [visitT]
    | expr e => simp [visitT]
    | node n =>
        have hlt : sizeN n < k := by
          simp only [sizeT, sizeTAux, sizeN] at hk ⊢; omega
        have h2 := (ih (sizeN n) hlt).2.2 nested n (Nat.le_refl _)
          (by simpa [wfT] using h)
        simpa [visitT] using h2
    | tup xs =>
        have hw : wfL xs = true := by simpa [wfT] using h
        have hlt : sizeTL xs + 1 < k := by
          simp only [sizeT, sizeTAux] at hk; omega
        have h2 := (ih (sizeTL xs + 1) hlt).2.1 nested xs (Nat.le_refl _) hw
        simp [visitT, h2, tfilter, bind, Except.bind, pure, Except.pure,
          wfL_filter xs hw]
  · -- visitL
    intro nested xs hk h
    cases xs with
    | nil => simp [visitL]
    | cons x rest =>
        simp only [wfL, Bool.and_eq_true] at h
        obtain ⟨⟨_, hx⟩, hrest⟩ := h
        have hl1 : sizeT x < k := by
          simp only [sizeTL, sizeT] at hk ⊢; omega
        have hl2 : sizeTL rest + 1 < k := by
          simp only [sizeTL] at hk ⊢; omega
        have e1 := (ih (sizeT x) hl1).1 nested x (Nat.le_refl _) hx
        have e2 := (ih (sizeTL rest + 1) hl2).2.1 nested rest (Nat.le_refl _) hrest
        simp [visitL, e1, e2, bind, Except.bind, pure, Except.pure]
  · -- visitNode
    intro nested n hk h
    rw [visitNode_unmapped nested emptyMapper n rfl]
    cases n with
    | intrinsic a b c =>
        simp [visitGroups, rebuild, slotT, slotL, asTuple,
          bind, Except.bind, pure, Except.pure]
    | comment a b c =>
        simp [visitGroups, rebuild, slotT, slotL, asTuple,
          bind, Except.bind, pure, Except.pure]
    | commentBlock a b c =>
        simp [visitGroups, rebuild, slotT, slotL, asTuple,
          bind, Except.bind, pure, Except.pure]
    | pragma a b c d =>
        simp [visitGroups, rebuild, slotT, slotL, asTuple,
          bind, Except.bind, pure, Except.pure]
    | preprocessorDirective a b c =>
        simp [visitGroups, rebuild, slotT, slotL, asTuple,
          bind, Except.bind, pure, Except.pure]
    | loop v b body p pp ll nm hed s lb =>
        simp only [wfN, Bool.and_eq_true] at h
        obtain ⟨⟨h1, h2⟩, h3⟩ := h
        have s1 : sizeT v < k := by
          simp only [sizeN, sizeNAux, sizeT] at hk ⊢; omega
        have e1 := (ih (sizeT v) s1).1 nested v (Nat.le_refl _) h1
        have s2 : sizeT b < k := by
          simp only [sizeN, sizeNAux, sizeT] at hk ⊢; omega
        have e2 := (ih (sizeT b) s2).1 nested b (Nat.le_refl _) h2
        have s3 : sizeTL body + 1 < k := by
          simp only [sizeN, sizeNAux] at hk; omega
        have e3 := (ih (sizeTL body + 1) s3).2.1 nested body (Nat.le_refl _) h3
        simp [visitGroups, e1, e2, e3, wfL_filter body h3,
          tfilter, rebuild, slotT, slotL, asTuple, bind, Except.bind, pure, Except.pure]
    | whileLoop c body p pp ll nm hed s lb =>
        simp only [wfN, Bool.and_eq_true] at h
        obtain ⟨h1, h2⟩ := h
        have s1 : sizeT c < k := by
          simp only [sizeN, sizeNAux, sizeT] at hk ⊢; omega
        have e1 := (ih (sizeT c) s1).1 nested c (Nat.le_refl _) h1
        have s2 : sizeTL body + 1 < k := by
          simp only [sizeN, sizeNAux] at hk; omega
        have e2 := (ih (sizeTL body + 1) s2).2.1 nested body (Nat.le_refl _) h2
        simp [visitGroups, e1, e2, wfL_filter body h2,
          tfilter, rebuild, slotT, slotL, asTuple, bind, Except.bind, pure, Except.pure]
    | conditional conds bodies elseB inl nm s lb =>
        simp only [wfN, Bool.and_eq_true] at h
        obtain ⟨⟨h1, h2⟩, h3⟩ := h
        have s1 : sizeTL conds + 1 < k := by
          simp only [sizeN, sizeNAux] at hk; omega
        have e1 := (ih (sizeTL conds + 1) s1).2.1 nested conds (Nat.le_refl _) h1
        have s2 : sizeTL bodies + 1 < k := by
          simp only [sizeN, sizeNAux] at hk; omega
        have e2 := (ih (sizeTL bodies + 1) s2).2.1 nested bodies (Nat.le_refl _) h2
        have s3 : sizeTL elseB + 1 < k := by
          simp only [sizeN, sizeNAux] at hk; omega
        have e3 := (ih (sizeTL elseB + 1) s3).2.1 nested elseB (Nat.le_refl _) h3
        simp [visitGroups, e1, wfL_filter conds h1, e2, wfL_filter bodies h2, e3, wfL_filter elseB h3,
          tfilter, rebuild, slotT, slotL, asTuple, bind, Except.bind, pure, Except.pure]
    | conditionalStatement a b c d e =>
        simp [visitGroups, rebuild, slotT, slotL, asTuple,
          bind, Except.bind, pure, Except.pure]
    | multiConditional e vals bodies elseB nm s lb =>
        simp only [wfN, Bool.and_eq_true] at h
        obtain ⟨⟨⟨h1, h2⟩, h3⟩, h4⟩ := h
        have s1 : sizeT e < k := by
          simp only [sizeN, sizeNAux, sizeT] at hk ⊢; omega
        have e1 := (ih (sizeT e) s1).1 nested e (Nat.le_refl _) h1
        have s2 : sizeTL vals + 1 < k := by
          simp only [sizeN, sizeNAux] at hk; omega
        have e2 := (ih (sizeTL vals + 1) s2).2.1 nested vals (Nat.le_refl _) h2
        have s3 : sizeTL bodies + 1 < k := by
          simp only [sizeN, sizeNAux] at hk; omega
        have e3 := (ih (sizeTL bodies + 1) s3).2.1 nested bodies (Nat.le_refl _) h3
        have s4 : sizeTL elseB + 1 < k := by
          simp only [sizeN, sizeNAux] at hk; omega
        have e4 := (ih (sizeTL elseB + 1) s4).2.1 nested elseB (Nat.le_refl _) h4
        simp [visitGroups, e1, e2, wfL_filter vals h2, e3, wfL_filter bodies h3, e4, wfL_filter elseB h4,
          tfilter, rebuild, slotT, slotL, asTuple, bind, Except.bind, pure, Except.pure]
    | statement t e ptr c s lb =>
        simp only [wfN, Bool.and_eq_true] at h
        obtain ⟨h1, h2⟩ := h
        have s1 : sizeT t < k := by
          simp only [sizeN, sizeNAux, sizeT] at hk ⊢; omega
        have e1 := (ih (sizeT t) s1).1 nested t (Nat.le_refl _) h1
        have s2 : sizeT e < k := by
          simp only [sizeN, sizeNAux, sizeT] at hk ⊢; omega
        have e2 := (ih (sizeT e) s2).1 nested e (Nat.le_refl _) h2
        simp [visitGroups, e1, e2,
          tfilter, rebuild, slotT, slotL, asTuple, bind, Except.bind, pure, Except.pure]
    | maskedStatement c body d s lb =>
        simp only [wfN, Bool.and_eq_true] at h
        obtain ⟨⟨h1, h2⟩, h3⟩ := h
        have s1 : sizeT c < k := by
          simp only [sizeN, sizeNAux, sizeT] at hk ⊢; omega
        have e1 := (ih (sizeT c) s1).1 nested c (Nat.le_refl _) h1
        have s2 : sizeTL body + 1 < k := by
          simp only [sizeN, sizeNAux] at hk; omega
        have e2 := (ih (sizeTL body + 1) s2).2.1 nested body (Nat.le_refl _) h2
        have s3 : sizeTL d + 1 < k := by
          simp only [sizeN, sizeNAux] at hk; omega
        have e3 := (ih (sizeTL d + 1) s3).2.1 nested d (Nat.le_refl _) h3
        simp [visitGroups, e1, e2, wfL_filter body h2, e3, wfL_filter d h3,
          tfilter, rebuild, slotT, slotL, asTuple, bind, Except.bind, pure, Except.pure]
    | sectionNode body s lb =>
        have h1 : wfL body = true := by simpa [wfN] using h
        have s1 : sizeTL body + 1 < k := by
          simp only [sizeN, sizeNAux] at hk; omega
        have e1 := (ih (sizeTL body + 1) s1).2.1 nested body (Nat.le_refl _) h1
        simp [visitGroups, e1, wfL_filter body h1,
          tfilter, rebuild, slotT, slotL, asTuple, bind, Except.bind, pure, Except.pure]
    | scope body assoc s lb =>
        have h1 : wfL body = true := by simpa [wfN] using h
        have s1 : sizeTL body + 1 < k := by
          simp only [sizeN, sizeNAux] at hk; omega
        have e1 := (ih (sizeTL body + 1) s1).2.1 nested body (Nat.le_refl _) h1
        simp [visitGroups, e1, wfL_filter body h1,
          tfilter, rebuild, slotT, slotL, asTuple, bind, Except.bind, pure, Except.pure]
    | declaration vars dims ext c p s lb =>
        simp only [wfN, Bool.and_eq_true] at h
        obtain ⟨hv, hd⟩ := h
        have s1 : sizeTL vars + 1 < k := by
          simp only [sizeN, sizeNAux] at hk; omega
        have e1 := (ih (sizeTL vars + 1) s1).2.1 nested vars (Nat.le_refl _) hv
        cases dims with
        | none =>
            simp [visitGroups, visitDims, e1, wfL_filter vars hv, isFalsy,
              tfilter, rebuild, slotT, slotL, asTuple, bind, Except.bind, pure, Except.pure]
        | some l =>
            cases l with
            | nil => simp [wfDims] at hd
            | cons d0 drest =>
                have hl : wfL (d0 :: drest) = true := by
                  simpa [wfDims] using hd
                have s2 : sizeTL (d0 :: drest) + 1 < k := by
                  simp only [sizeN, sizeNAux, sizeDims, sizeTL] at hk ⊢; omega
                have e2 := (ih (sizeTL (d0 :: drest) + 1) s2).2.1 nested
                  (d0 :: drest) (Nat.le_refl _) hl
                simp [visitGroups, visitDims, e1, e2, wfL_filter vars hv,
                  wfL_filter (d0 :: drest) hl, isFalsy,
                  tfilter, rebuild, slotT, slotL, asTuple, bind, Except.bind, pure, Except.pure]
    | dataDeclaration v vals s lb =>
        simp only [wfN, Bool.and_eq_true] at h
        obtain ⟨h1, h2⟩ := h
        have s1 : sizeT v < k := by
          simp only [sizeN, sizeNAux, sizeT] at hk ⊢; omega
        have e1 := (ih (sizeT v) s1).1 nested v (Nat.le_refl _) h1
        have s2 : sizeTL vals + 1 < k := by
          simp only [sizeN, sizeNAux] at hk; omega
        have e2 := (ih (sizeTL vals + 1) s2).2.1 nested vals (Nat.le_refl _) h2
        simp [visitGroups, e1, e2, wfL_filter vals h2,
          tfilter, rebuild, slotT, slotL, asTuple, bind, Except.bind, pure, Except.pure]
    | importNode a b c d e f =>
        simp [visitGroups, rebuild, slotT, slotL, asTuple,
          bind, Except.bind, pure, Except.pure]
    | interfaceNode sp body s lb =>
        have h1 : wfL body = true := by simpa [wfN] using h
        have s1 : sizeTL body + 1 < k := by
          simp only [sizeN, sizeNAux] at hk; omega
        have e1 := (ih (sizeTL body + 1) s1).2.1 nested body (Nat.le_refl _) h1
        simp [visitGroups, e1, wfL_filter body h1,
          tfilter, rebuild, slotT, slotL, asTuple, bind, Except.bind, pure, Except.pure]
    | allocation vars ds s lb =>
        have h1 : wfL vars = true := by simpa [wfN] using h
        have s1 : sizeTL vars + 1 < k := by
          simp only [sizeN, sizeNAux] at hk; omega
        have e1 := (ih (sizeTL vars + 1) s1).2.1 nested vars (Nat.le_refl _) h1
        simp [visitGroups, e1, wfL_filter vars h1,
          tfilter, rebuild, slotT, slotL, asTuple, bind, Except.bind, pure, Except.pure]
    | deallocation vars s lb =>
        have h1 : wfL vars = true := by simpa [wfN] using h
        have s1 : sizeTL vars + 1 < k := by
          simp only [sizeN, sizeNAux] at hk; omega
        have e1 := (ih (sizeTL vars + 1) s1).2.1 nested vars (Nat.le_refl _) h1
        simp [visitGroups, e1, wfL_filter vars h1,
          tfilter, rebuild, slotT, slotL, asTuple, bind, Except.bind, pure, Except.pure]
    | nullify vars s lb =>
        have h1 : wfL vars = true := by simpa [wfN] using h
        have s1 : sizeTL vars + 1 < k := by
          simp only [sizeN, sizeNAux] at hk; omega
        have e1 := (ih (sizeTL vars + 1) s1).2.1 nested vars (Nat.le_refl _) h1
        simp [visitGroups, e1, wfL_filter vars h1,
          tfilter, rebuild, slotT, slotL, asTuple, bind, Except.bind, pure, Except.pure]
    | callStatement nm args kwargs ctx p s lb =>
        simp only [wfN, Bool.and_eq_true] at h
        obtain ⟨h1, h2⟩ := h
        have s1 : sizeTL args + 1 < k := by
          simp only [sizeN, sizeNAux] at hk; omega
        have e1 := (ih (sizeTL args + 1) s1).2.1 nested args (Nat.le_refl _) h1
        have s2 : sizeTL kwargs + 1 < k := by
          simp only [sizeN, sizeNAux] at hk; omega
        have e2 := (ih (sizeTL kwargs + 1) s2).2.1 nested kwargs (Nat.le_refl _) h2
        have e3 := wfL_filter kwargs h2
        cases kwargs with
        | nil =>
            simp [visitGroups, e1, e2, wfL_filter args h1, isFalsy,
              tfilter, rebuild, slotT, slotL, asTuple, bind, Except.bind, pure, Except.pure]
        | cons k0 krest =>
            simp [visitGroups, e1, e2, e3, wfL_filter args h1, isFalsy,
              tfilter, rebuild, slotT, slotL, asTuple, bind, Except.bind, pure, Except.pure]
    | callContext a b =>
        simp [visitGroups, rebuild, slotT, slotL, asTuple,
          bind, Except.bind, pure, Except.pure]
    | typeDef nm body bc sym s lb =>
        simp [visitGroups, rebuild, slotT, slotL, asTuple,
          bind, Except.bind, pure, Except.pure]

theorem visitT_empty (nested : Bool) (t : TVal) (h : wfT t = true) :
    visitT nested emptyMapper t = Except.ok t :=
  (visitEmptyAll (sizeT t)).1 nested t (Nat.le_refl _) h

theorem visitL_empty (nested : Bool) (xs : List TVal) (h : wfL xs = true) :
    visitL nested emptyMapper xs = Except.ok xs :=
  (visitEmptyAll (sizeTL xs + 1)).2.1 nested xs (Nat.le_refl _) h

theorem visitNode_empty (nested : Bool) (n : IRNode) (h : wfN n = true) :
    visitNode nested emptyMapper n = Except.ok (.node n) :=
  (visitEmptyAll (sizeN n)).2.2 nested n (Nat.le_refl _) h

/-- C1: for every well-formed IR tree, a `Transformer` constructed with
an empty mapping returns a tree structurally equal to the input: no node
is dropped, replaced or reordered, and every rebuilt node is
structurally identical to the original.  (Well-formedness: no tuple in a
traversable child group directly contains Python `None` — `visit_tuple`
would silently drop such an entry.) -/
theorem transformer_empty_mapping_identity (t : TVal) (h : wfT t = true) :
    transformerVisit emptyMapper t = Except.ok t :=
  visitT_empty false t h

/-- Witness for C1 on a concrete loop-with-statement tree. -/
theorem transformer_empty_mapping_identity_witness :
    wfT (.node exLoop) = true ∧
    transformerVisit emptyMapper (.node exLoop) = Except.ok (.node exLoop) :=
  ⟨by simp [exLoop, exStatement, wfT, wfN, wfL, TVal.isNone],
   transformer_empty_mapping_identity (.node exLoop)
     (by simp [exLoop, exStatement, wfT, wfN, wfL, TVal.isNone])⟩

/-- An unmapped `Statement` over expression operands is rebuilt
unchanged (its two child groups are expressions, which `visit_object`
returns as-is). -/
theorem visitNode_statement_unmapped (nested : Bool) (m : Mapper)
    (t e : Expression) (p c s l : TVal)
    (hm : m (.statement (.expr t) (.expr e) p c s l) = Option.none) :
    visitNode nested m (.statement (.expr t) (.expr e) p c s l) =
      Except.ok (.node (.statement (.expr t) (.expr e) p c s l)) := by
  rw [visitNode_unmapped nested m _ hm]
  simp [visitGroups, visitT, rebuild, slotT, bind, Except.bind, pure, Except.pure]

/-- C4: mapping the middle `Statement` of a three-statement `Section`
body to the removal sentinel drops exactly that node and preserves the
order of its siblings: body `[S1, S2, S3]` with `{S2: None}` becomes
`[S1, S3]`. -/
theorem transformer_removal (m : Mapper)
    (t1 e1 t2 e2 t3 e3 : Expression)
    (p1 c1 s1 l1 p2 c2 s2 l2 p3 c3 s3 l3 secS secL : TVal)
    (hm1 : m (.statement (.expr t1) (.expr e1) p1 c1 s1 l1) = Option.none)
    (hm2 : m (.statement (.expr t2) (.expr e2) p2 c2 s2 l2) = .some .remove)
    (hm3 : m (.statement (.expr t3) (.expr e3) p3 c3 s3 l3) = Option.none)
    (hmp : m (.sectionNode
      [.node (.statement (.expr t1) (.expr e1) p1 c1 s1 l1),
       .node (.statement (.expr t2) (.expr e2) p2 c2 s2 l2),
       .node (.statement (.expr t3) (.expr e3) p3 c3 s3 l3)] secS secL) =
        Option.none) :
    transformerVisit m (.node (.sectionNode
      [.node (.statement (.expr t1) (.expr e1) p1 c1 s1 l1),
       .node (.statement (.expr t2) (.expr e2) p2 c2 s2 l2),
       .node (.statement (.expr t3) (.expr e3) p3 c3 s3 l3)] secS secL)) =
    Except.ok (.node (.sectionNode
      [.node (.statement (.expr t1) (.expr e1) p1 c1 s1 l1),
       .node (.statement (.expr t3) (.expr e3) p3 c3 s3 l3)] secS secL)) := by
  have hS1 := visitNode_statement_unmapped false m t1 e1 p1 c1 s1 l1 hm1
  have hS3 := visitNode_statement_unmapped false m t3 e3 p3 c3 s3 l3 hm3
  have hS2 : visitNode false m (.statement (.expr t2) (.expr e2) p2 c2 s2 l2) =
      Except.ok .none := by
    rw [visitNode_mapped m _ _ hm2]; simp [tmapped]
  rw [transformerVisit]
  simp only [visitT]
  rw [visitNode_unmapped false m _ hmp]
  simp [visitGroups, visitL, visitT, hS1, hS2, hS3, tfilter, TVal.isNone,
    rebuild, slotL, asTuple, bind, Except.bind, pure, Except.pure]

/-- Witness for C4 on a concrete section and mapper. -/
theorem transformer_removal_witness :
    transformerVisit exRemoveMapper (.node exSection) =
      Except.ok (.node (.sectionNode [.node exStatement, .node exStatement3]
        .none .none)) :=
  transformer_removal exRemoveMapper _ _ _ _ _ _ _ _ _ _ _ _ _ _ _ _ _ _ _ _
    rfl rfl rfl rfl

/-- C5 (counterexample to the claim as stated): mapping a `Loop` — a
node *with* children groups — to a sequence does not splice: the first
child group of a `Loop` is its loop variable (an expression, not a
tuple), so `tuple(handle) + o.children[0]` raises `TypeError` instead of
producing a tree. -/
theorem transformer_splice_loop_typeerror :
    transformerVisit exSpliceLoopMapper (.node exLoop) =
      Except.error PyErr.typeError := by
  rw [transformerVisit]
  simp only [visitT]
  rw [visitNode_mapped exSpliceLoopMapper exLoop (.splice [.node exStatement3]) rfl]
  simp [tmapped, exLoop, children]

/-- C5 (amended): a mapped-to-sequence node is spliced immediately
before its first child group when that group is a tuple (here: a
`Section`, whose only group is its body, with all later groups untouched
and no recursion into the spliced node); a node with no children groups
(here: a `Comment`) raises an error instead (`NameError`, since the
`raise VisitorException` statement names an undefined identifier); and a
node whose first child group is not a tuple raises `TypeError` (see the
counterexample). -/
theorem transformer_splice (m1 m2 : Mapper)
    (body ns : List TVal) (secS secL : TVal)
    (text cs cl : TVal) (ns2 : List TVal)
    (hm1 : m1 (.sectionNode body secS secL) = .some (.splice ns))
    (hm2 : m2 (.comment text cs cl) = .some (.splice ns2)) :
    transformerVisit m1 (.node (.sectionNode body secS secL)) =
      Except.ok (.node (.sectionNode (ns ++ body) secS secL)) ∧
    transformerVisit m2 (.node (.comment text cs cl)) =
      Except.error PyErr.nameError := by
  constructor
  · rw [transformerVisit]
    simp only [visitT]
    rw [visitNode_mapped m1 _ _ hm1]
    simp [tmapped, children, rebuild, slotL, asTuple]
  · rw [transformerVisit]
    simp only [visitT]
    rw [visitNode_mapped m2 _ _ hm2]
    simp [tmapped, children]

/-- Witness for the amended C5 on concrete nodes and mappers. -/
theorem transformer_splice_witness :
    transformerVisit exSpliceMapper (.node exSection) =
      Except.ok (.node (.sectionNode
        [.node exStatement3, .node exStatement, .node exStatement2,
         .node exStatement3] .none .none)) ∧
    transformerVisit exSpliceCommentMapper (.node (.comment (.str "c") .none .none)) =
      Except.error PyErr.nameError :=
  transformer_splice exSpliceMapper exSpliceCommentMapper
    [.node exStatement, .node exStatement2, .node exStatement3]
    [.node exStatement3] .none .none (.str "c") .none .none
    [.node exStatement3] rfl rfl

/-- C9: when a `NestedTransformer` maps a node to a single replacement,
the result is the *replacement* rebuilt with the *original* node's
(recursively transformed) children substituted into its traversable
fields — the replacement's own traversable children are discarded —
whereas the plain `Transformer` keeps the replacement subtree wholesale
(`handle._rebuild(**handle.args)`, a structural copy of the
replacement).  Shown on a `Statement` with expression operands: the
nested result has the original's `target`/`expr` and the replacement's
frozen `ptr`/`comment` fields; the plain result is the replacement
itself. -/
theorem nested_replacement_keeps_original_children (m : Mapper)
    (t e : Expression) (ptr c s l t2 e2 ptr2 c2 s2 l2 : TVal)
    (hm : m (.statement (.expr t) (.expr e) ptr c s l) =
      .some (.replace (.statement t2 e2 ptr2 c2 s2 l2))) :
    nestedTransformerVisit m (.node (.statement (.expr t) (.expr e) ptr c s l)) =
      Except.ok (.node (.statement (.expr t) (.expr e) ptr2 c2 s2 l2)) ∧
    transformerVisit m (.node (.statement (.expr t) (.expr e) ptr c s l)) =
      Except.ok (.node (.statement t2 e2 ptr2 c2 s2 l2)) := by
  constructor
  · rw [nestedTransformerVisit]
    simp only [visitT]
    simp [visitNode, hm, visitGroups, visitT, rebuild, slotT,
      bind, Except.bind, pure, Except.pure]
  · rw [transformerVisit]
    simp only [visitT]
    rw [visitNode_mapped m _ _ hm]
    simp [tmapped]

/-- Witness for C9 on a concrete statement and mapper. -/
theorem nested_replacement_keeps_original_children_witness :
    nestedTransformerVisit exReplaceMapper (.node exStatement) =
      Except.ok (.node (.statement
        (.expr (.variable "JL" (.some "INTEGER") .none [] .none .none))
        (.expr (.literal "0" Option.none (.some "INTEGER")))
        (.bool false) .none .none .none)) ∧
    transformerVisit exReplaceMapper (.node exStatement) =
      Except.ok (.node exStatement2) :=
  nested_replacement_keeps_original_children exReplaceMapper
    (.variable "JL" (.some "INTEGER") .none [] .none .none)
    (.literal "0" Option.none (.some "INTEGER"))
    (.bool false) .none .none .none
    (.expr (.variable "KL" (.some "INTEGER") .none [] .none .none))
    (.expr (.literal "1" Option.none (.some "INTEGER")))
    (.bool false) .none .none .none rfl

/-- C10: `Transformer.__init__` copies the supplied mapping
(`self.mapper = mapper.copy()`): the transformer's dict is a fresh
object whose content equals the caller's at construction time, so
mutating the caller's dict afterwards (replacing its content with
anything) neither changes the transformer's dict nor which nodes a pass
replaces. -/
theorem transformer_copies_mapper (heap : DictHeap) (cRef : Nat)
    (hlt : cRef < heap.length) (d2 : Mapper) (t : TVal) :
    (transformerInit heap cRef).2 ≠ cRef ∧
    (dictAssign (transformerInit heap cRef).1 cRef d2).getD
        (transformerInit heap cRef).2 emptyMapper =
      heap.getD cRef emptyMapper ∧
    transformerRun (dictAssign (transformerInit heap cRef).1 cRef d2)
        (transformerInit heap cRef).2 t =
      transformerVisit (heap.getD cRef emptyMapper) t := by
  have hne : heap.length ≠ cRef := Nat.ne_of_gt hlt
  have hget : (dictAssign (transformerInit heap cRef).1 cRef d2).getD
      (transformerInit heap cRef).2 emptyMapper = heap.getD cRef emptyMapper := by
    simp only [transformerInit, dictAssign, List.getD]
    rw [List.get?_set_ne d2 _ (Ne.symm hne), List.get?_concat_length]
    rfl
  exact ⟨hne, hget, by rw [transformerRun, hget]⟩

/-- Witness for C10 on a one-dict heap. -/
theorem transformer_copies_mapper_witness :
    (transformerInit [exRemoveMapper] 0).2 ≠ 0 ∧
    (dictAssign (transformerInit [exRemoveMapper] 0).1 0 emptyMapper).getD
        (transformerInit [exRemoveMapper] 0).2 emptyMapper =
      [exRemoveMapper].getD 0 emptyMapper ∧
    transformerRun (dictAssign (transformerInit [exRemoveMapper] 0).1 0 emptyMapper)
        (transformerInit [exRemoveMapper] 0).2 (.node exSection) =
      transformerVisit ([exRemoveMapper].getD 0 emptyMapper) (.node exSection) :=
  transformer_copies_mapper [exRemoveMapper] 0 (by simp) emptyMapper
    (.node exSection)

/-- C6 (counterexample to the claim as stated): `Section.append` does
*not* produce a new node via `_rebuild` — it re-initialises the existing
node in place via `_update`.  On a one-node heap, appending through the
node's reference changes the node stored at that same reference and
allocates nothing. -/
theorem section_append_in_place_counterexample :
    (sectionAppend [IRNode.sectionNode [] .none .none] 0
        (.node exStatement)).get? 0 ≠
      some (IRNode.sectionNode [] .none .none) ∧
    (sectionAppend [IRNode.sectionNode [] .none .none] 0
        (.node exStatement)).length = 1 := by
  constructor
  · simp [sectionAppend, asTuple]
  · simp [sectionAppend, asTuple]

/-- C6 (amended): `append`/`insert`/`prepend` update the `Section` node
in place through `_update` (re-running the constructor with the new
argument recipe): the node at the caller's reference afterwards holds a
*new body tuple* — formed by tuple concatenation, never by mutating a
list — while no new node object is created (the heap size is
unchanged). -/
theorem section_ops_in_place (heap : List IRNode) (r : Nat)
    (body : List TVal) (s lb x : TVal) (pos : Nat)
    (h : heap.get? r = some (.sectionNode body s lb)) :
    (sectionAppend heap r x).get? r =
      some (.sectionNode (body ++ asTuple x) s lb) ∧
    (sectionAppend heap r x).length = heap.length ∧
    (sectionInsert heap r pos x).get? r =
      some (.sectionNode (body.take pos ++ asTuple x ++ body.drop pos) s lb) ∧
    (sectionInsert heap r pos x).length = heap.length ∧
    (sectionPrepend heap r x).get? r =
      some (.sectionNode (asTuple x ++ body) s lb) ∧
    (sectionPrepend heap r x).length = heap.length := by
  have hr : r < heap.length := by
    by_contra hcon
    rw [List.get?_eq_none.mpr (Nat.le_of_not_lt hcon)] at h
    exact Option.noConfusion h
  refine ⟨?_, ?_, ?_, ?_, ?_, ?_⟩ <;>
  · simp only [sectionAppend, sectionInsert, sectionPrepend, h]
    simp [List.get?_set_eq, List.getElem?_set_self', h, hr]

/-- Witness for the amended C6 on a concrete heap. -/
theorem section_ops_in_place_witness :
    (sectionAppend [IRNode.sectionNode [.node exStatement] .none .none] 0
        (.node exStatement2)).get? 0 =
      some (.sectionNode [.node exStatement, .node exStatement2] .none .none) ∧
    (sectionAppend [IRNode.sectionNode [.node exStatement] .none .none] 0
        (.node exStatement2)).length = 1 ∧
    (sectionInsert [IRNode.sectionNode [.node exStatement] .none .none] 0 0
        (.node exStatement2)).get? 0 =
      some (.sectionNode [.node exStatement2, .node exStatement] .none .none) ∧
    (sectionInsert [IRNode.sectionNode [.node exStatement] .none .none] 0 0
        (.node exStatement2)).length = 1 ∧
    (sectionPrepend [IRNode.sectionNode [.node exStatement] .none .none] 0
        (.node exStatement2)).get? 0 =
      some (.sectionNode [.node exStatement2, .node exStatement] .none .none) ∧
    (sectionPrepend [IRNode.sectionNode [.node exStatement] .none .none] 0
        (.node exStatement2)).length = 1 :=
  section_ops_in_place [IRNode.sectionNode [.node exStatement] .none .none] 0
    [.node exStatement] .none .none (.node exStatement2) 0 rfl

/-- C3 (counterexample to the claim as stated): `TypeDef` declares
`_traversable = ['body']` but defines no `children` property, so it
inherits `Node.children` and returns the empty tuple: zero entries for
one declared traversable field. -/
theorem children_arity_typedef_counterexample :
    (children (.typeDef (.str "t") [.node exStatement] (.bool false) .none
        .none .none)).length ≠
      (traversableNames (.typeDef (.str "t") [.node exStatement] (.bool false)
        .none .none .none)).length ∧
    (children (.typeDef (.str "t") [.node exStatement] (.bool false) .none
        .none .none)).length = 0 ∧
    (traversableNames (.typeDef (.str "t") [.node exStatement] (.bool false)
        .none .none .none)).length = 1 := by
  refine ⟨by decide, rfl, rfl⟩

/-- C3 (amended): for every concrete node type other than `TypeDef` and
every field combination, `children` returns exactly one entry per
declared traversable field (in declaration order, as the classwise
definitions show), and a node type with no traversable fields returns
the empty tuple. -/
theorem children_arity (n : IRNode) (h : isTypeDef n = false) :
    (children n).length = (traversableNames n).length := by
  cases n <;> simp [children, traversableNames, isTypeDef] at h ⊢

/-- Witness for the amended C3 on a concrete loop. -/
theorem children_arity_witness :
    isTypeDef exLoop = false ∧
    (children exLoop).length = (traversableNames exLoop).length :=
  ⟨rfl, children_arity exLoop rfl⟩

/-- C7 (code bug): accessing `Operation.type` can never signal mixed
operand types with an `AssertionError`, nor return the common operand
type: `assert(all(types == types[0]))` compares the *list* `types` with
its first element (always `False`) and then calls `all` on that bool,
which raises `TypeError` — here even for two operands of the identical
type `INTEGER`. -/
theorem operation_type_raises_typeerror :
    exprTypeE (.operation ["+"]
      [.expr (.literal "1" Option.none (.some "INTEGER")),
       .expr (.literal "2" Option.none (.some "INTEGER"))] false) =
      Except.error PyErr.typeError := by
  simp [exprTypeE, exprTypeList, exprType, pyTypesEq, pyAll,
    bind, Except.bind, pure, Except.pure]

/-- C8 (counterexample to the claim as stated): comparing a `Variable`
against a plain string matches `str(self).upper()` — the *full rendered
expression*, dimensions and all — not the bare name: a variable named
`JL` with dimension `I` renders as `JL(I)` and compares `False` against
`'jl'` even though the names match ignoring case. -/
theorem variable_string_eq_counterexample :
    pyEq (.expr (.variable "JL" Option.none .none [.expr (.index "I")]
      .none .none)) (.str "jl") = false := by
  simp [pyEq, pyEqMethod, exprEqMethod, exprRender, renderJoin, pyStr]
  decide

/-- C8 (amended): comparison of a `Variable` against a plain string is a
case-insensitive match of the variable's full textual rendering
(`str(self).upper() == other.upper()`); for a variable with no
derived-type ref and no dimensions the rendering is exactly its name, so
the comparison is then a case-insensitive exact-name match
(`Variable(name='JL') == 'jl'` is `True`). -/
theorem variable_string_eq (name : String) (type0 : Option String)
    (shape ini : PyVal) (s : String) :
    pyEq (.expr (.variable name type0 shape [] .none ini)) (.str s) =
      (pyUpper name == pyUpper s) := by
  simp [pyEq, pyEqMethod, exprEqMethod, exprRender, renderJoin]

/-- The concrete `Variable(name='JL') == 'jl'` instance of C8. -/
theorem variable_string_eq_example :
    pyEq (.expr (.variable "JL" Option.none .none [] .none .none))
      (.str "jl") = true := by
  rw [variable_string_eq "JL" Option.none .none .none "jl"]
  decide

/-- Structural identity (`beqP` and friends) is reflexive. -/
theorem beqReflAll : ∀ k : Nat,
    (∀ p, sizeP p ≤ k → beqP p p = true) ∧
    (∀ e, sizeE e ≤ k → beqE e e = true) ∧
    (∀ xs, sizePL xs + 1 ≤ k → beqPL xs xs = true) ∧
    (∀ kw, sizePKW kw + 1 ≤ k → beqPKW kw kw = true) := by
  intro k
  induction k using Nat.strong_induction_on with
  | _ k ih =>
  refine ⟨?_, ?_, ?_, ?_⟩
  · intro p hk
    cases p with
    | none => simp [beqP]
    | str s => simp [beqP]
    | expr e =>
        have hlt : sizeE e < k := by
          simp only [sizeP, sizePAux, sizeE] at hk ⊢; omega
        simpa [beqP] using (ih _ hlt).2.1 e (Nat.le_refl _)
  · intro e hk
    cases e
    · -- operation
      rename_i ops operands par
      have hlt : sizePL operands + 1 < k := by
        simp only [sizeE, sizeEAux] at hk; omega
      simp [beqE, (ih _ hlt).2.2.1 operands (Nat.le_refl _)]
    · -- literal
      simp [beqE]
    · -- literalList
      rename_i vs
      have hlt : sizePL vs + 1 < k := by
        simp only [sizeE, sizeEAux] at hk; omega
      simp [beqE, (ih _ hlt).2.2.1 vs (Nat.le_refl _)]
    · -- variable
      rename_i nm t sh dims ref ini
      have h1 : sizeP sh < k := by
        simp only [sizeE, sizeEAux, sizeP] at hk ⊢; omega
      have h2 : sizePL dims + 1 < k := by
        simp only [sizeE, sizeEAux] at hk; omega
      have h3 : sizeP ref < k := by
        simp only [sizeE, sizeEAux, sizeP] at hk ⊢; omega
      have h4 : sizeP ini < k := by
        simp only [sizeE, sizeEAux, sizeP] at hk ⊢; omega
      simp [beqE, (ih _ h1).1 sh (Nat.le_refl _),
        (ih _ h2).2.2.1 dims (Nat.le_refl _), (ih _ h3).1 ref (Nat.le_refl _),
        (ih _ h4).1 ini (Nat.le_refl _)]
    · -- inlineCall
      rename_i nm args kw
      have h1 : sizePL args + 1 < k := by
        simp only [sizeE, sizeEAux] at hk; omega
      have h2 : sizePKW kw + 1 < k := by
        simp only [sizeE, sizeEAux] at hk; omega
      simp [beqE, (ih _ h1).2.2.1 args (Nat.le_refl _),
        (ih _ h2).2.2.2 kw (Nat.le_refl _)]
    · -- cast
      rename_i e0 t
      have h1 : sizeP e0 < k := by
        simp only [sizeE, sizeEAux, sizeP] at hk ⊢; omega
      simp [beqE, (ih _ h1).1 e0 (Nat.le_refl _)]
    · -- index
      simp [beqE]
    · -- rangeIndex
      rename_i l u s
      have h1 : sizeP l < k := by
        simp only [sizeE, sizeEAux, sizeP] at hk ⊢; omega
      have h2 : sizeP u < k := by
        simp only [sizeE, sizeEAux, sizeP] at hk ⊢; omega
      have h3 : sizeP s < k := by
        simp only [sizeE, sizeEAux, sizeP] at hk ⊢; omega
      simp [beqE, (ih _ h1).1 l (Nat.le_refl _), (ih _ h2).1 u (Nat.le_refl _),
        (ih _ h3).1 s (Nat.le_refl _)]
  · intro xs hk
    cases xs with
    | nil => simp [beqPL]
    | cons x rest =>
        have h1 : sizeP x < k := by
          simp only [sizePL, sizeP] at hk ⊢; omega
        have h2 : sizePL rest + 1 < k := by
          simp only [sizePL] at hk ⊢; omega
        simp [beqPL, (ih _ h1).1 x (Nat.le_refl _),
          (ih _ h2).2.2.1 rest (Nat.le_refl _)]
  · intro kw hk
    cases kw with
    | nil => simp [beqPKW]
    | cons x rest =>
        obtain ⟨kx, vx⟩ := x
        have h1 : sizeP vx < k := by
          simp only [sizePKW, sizeP] at hk ⊢; omega
        have h2 : sizePKW rest + 1 < k := by
          simp only [sizePKW] at hk ⊢; omega
        simp [beqPKW, (ih _ h1).1 vx (Nat.le_refl _),
          (ih _ h2).2.2.2 rest (Nat.le_refl _)]

theorem beqP_refl (p : PyVal) : beqP p p = true :=
  (beqReflAll (sizeP p)).1 p (Nat.le_refl _)

/-- On range-free values, the Python `==` operator (`pyEq`) is
reflexive.  (Not true in general: a trivial `RangeIndex` compares its
bare `upper` against the other operand, which can fail on itself.) -/
theorem pyEqReflAll : ∀ k : Nat,
    (∀ p, sizeP p ≤ k → rangeFree p = true → pyEq p p = true) ∧
    (∀ xs, sizePL xs + 1 ≤ k → rangeFreeL xs = true →
      listEqPy xs xs = true) := by
  intro k
  induction k using Nat.strong_induction_on with
  | _ k ih =>
  constructor
  · intro p hk hr
    cases p with
    | none => simp [pyEq, pyEqMethod]
    | str s => simp [pyEq, pyEqMethod]
    | expr e =>
        cases e
        · -- operation
          rename_i ops operands par
          have hlt : sizePL operands + 1 < k := by
            simp only [sizeP, sizePAux, sizeEAux] at hk; omega
          have hrl : rangeFreeL operands = true := by
            simpa [rangeFree, rangeFreeE] using hr
          simp [pyEq, pyEqMethod, exprEqMethod,
            (ih _ hlt).2 operands (Nat.le_refl _) hrl]
        · -- literal
          simp [pyEq, pyEqMethod, exprEqMethod]
        · -- literalList
          simp [pyEq, pyEqMethod, exprEqMethod, beqP_refl]
        · -- variable
          rename_i nm t sh dims ref ini
          have h2 : sizePL dims + 1 < k := by
            simp only [sizeP, sizePAux, sizeEAux] at hk; omega
          have h3 : sizeP ref < k := by
            simp only [sizeP, sizePAux, sizeEAux] at hk ⊢; omega
          simp only [rangeFree, rangeFreeE, Bool.and_eq_true] at hr
          obtain ⟨⟨⟨_, hdim⟩, href⟩, _⟩ := hr
          simp [pyEq, pyEqMethod, exprEqMethod,
            (ih _ h2).2 dims (Nat.le_refl _) hdim,
            (ih _ h3).1 ref (Nat.le_refl _) href]
        · -- inlineCall
          simp [pyEq, pyEqMethod, exprEqMethod, beqP_refl]
        · -- cast
          simp [pyEq, pyEqMethod, exprEqMethod, beqP_refl]
        · -- index
          simp [pyEq, pyEqMethod, exprEqMethod]
        · -- rangeIndex
          rename_i l u s
          simp [rangeFree, rangeFreeE] at hr
  · intro xs hk hr
    cases xs with
    | nil => simp [listEqPy]
    | cons x rest =>
        simp only [rangeFreeL, Bool.and_eq_true] at hr
        obtain ⟨hx, hrest⟩ := hr
        have h1 : sizeP x < k := by
          simp only [sizePL, sizeP] at hk ⊢; omega
        have h2 : sizePL rest + 1 < k := by
          simp only [sizePL] at hk ⊢; omega
        simp [listEqPy, (ih _ h1).1 x (Nat.le_refl _) hx,
          (ih _ h2).2 rest (Nat.le_refl _) hrest]

theorem pyEq_refl (p : PyVal) (h : rangeFree p = true) : pyEq p p = true :=
  (pyEqReflAll (sizeP p)).1 p (Nat.le_refl _) h

/-- C2 (counterexample to the claim as stated): a trivial `RangeIndex`
(absent lower and step) compared against its own bare `upper` value can
return `False` — the shortcut returns `self.upper == other`, which is
not reflexive when the upper value is itself a trivial `RangeIndex`
whose own upper is a non-trivial one: here
`RangeIndex(None, U, None) == U` with `U = RangeIndex(None, V, None)`,
`V = RangeIndex('2', '3', None)` evaluates `V == U`, which compares keys
`('2', '3', None)` and `(None, V, None)` and fails. -/
theorem rangeindex_trivial_eq_counterexample :
    pyEq
      (.expr (.rangeIndex .none
        (.expr (.rangeIndex .none
          (.expr (.rangeIndex (.str "2") (.str "3") .none)) .none)) .none))
      (.expr (.rangeIndex .none
        (.expr (.rangeIndex (.str "2") (.str "3") .none)) .none)) = false := by
  simp [pyEq, pyEqMethod, exprEqMethod, PyVal.isNone, beqP]

/-- C2 (amended): a `RangeIndex` whose `lower` is absent-or-`'1'` and
whose `step` is absent-or-`'1'` and whose `upper` is present compares
equal to its bare `upper` value whenever equality on the upper value is
reflexive — guaranteed for range-free values, in particular for plain
strings such as `'N'`.  The shortcut lives in `RangeIndex.__eq__`, so it
governs every comparison in which that method is consulted: directly
when the `RangeIndex` is the left operand, and also through Python's
reflected-operand dispatch when the `RangeIndex` is the right operand
and the left operand's `__eq__` returns `NotImplemented` — e.g.
`'N' == RangeIndex(None, 'N', None)` is also `True`, so the shortcut is
not confined to the left-operand position. -/
theorem rangeindex_trivial_eq :
    (∀ (l u s : PyVal),
      (l.isNone || pyEq l (.str "1")) = true →
      (s.isNone || pyEq s (.str "1")) = true →
      u.isNone = false →
      rangeFree u = true →
      pyEq (.expr (.rangeIndex l u s)) u = true) ∧
    pyEq (.str "N") (.expr (.rangeIndex .none (.str "N") .none)) = true := by
  constructor
  · intro l u s hl hs hu hr
    have hstep : exprEqMethod (.rangeIndex l u s) u = .some (pyEq u u) := by
      rw [exprEqMethod.eq_def]
      simp [hl, hs, hu]
    simp [pyEq, pyEqMethod, hstep, pyEq_refl u hr]
  · simp [pyEq, pyEqMethod, exprEqMethod, PyVal.isNone]

/-- Witness for the amended C2: the spec's own
`RangeIndex(lower=None, upper='N', step=None) == 'N'` example. -/
theorem rangeindex_trivial_eq_witness :
    pyEq (.expr (.rangeIndex .none (.str "N") .none)) (.str "N") = true :=
  rangeindex_trivial_eq.1 .none (.str "N") .none
    (by simp [PyVal.isNone]) (by simp [PyVal.isNone]) rfl
    (by simp [rangeFree, rangeFreeE])
